import Mathlib

/-!
Verification of the time/schedule/ledger core of `notifsystem.py` (a Linux
notification scheduler driving the external one-shot `at` queue).

Modeling conventions of the shallow embedding:

* A Python `str` is modeled as `List Char` (`PyStr`).  String literals are
  written as `("...".data)`.
* Python string comparison (`<`, `<=`, `>`) is lexicographic by code point,
  with a proper prefix smaller than the longer string; this is `pyLt` / `pyLe`.
* Python `int(s)` on a decimal-digit string is `strToNat`; Python `str(i)` on
  an integer is `natToStr` / `intToStr` (no leading zeros, `-` sign).
* `datetime.datetime.today()` / `.now()` is passed in explicitly as a
  `DateTime` value (the "current instant"); `time.time()` is passed in as a
  `Nat` count of seconds (`nowE`) whose day boundary is aligned with local
  midnight, so that `time.strftime('%H%M%S', time.localtime e)` is the
  clock-of-day decomposition `fmtClock e`.
* Functions that can raise and abort the program (an uncaught exception) are
  modeled with an explicit aborted/ok result where a claim depends on it.
* A Python function that falls off the end returns `None`; where the value
  matters this is an `Option`, and where only its truthiness in a boolean
  context matters it is modeled as `false`.
-/

namespace Notifsystem

/-- Python strings, modeled as their list of characters. -/
abbrev PyStr := List Char

/-- The ten ASCII decimal digit characters. -/
def digitChars : PyStr := ['0', '1', '2', '3', '4', '5', '6', '7', '8', '9']

/-- ASCII decimal digit test (the `[0-9]` character class and the digits
accepted by `int()` / `strptime` for the inputs considered here). -/
def isDig (c : Char) : Bool := digitChars.contains c

/-- The decimal digit character of a value below ten. -/
def dChar (n : Nat) : Char :=
  match n with
  | 0 => '0' | 1 => '1' | 2 => '2' | 3 => '3' | 4 => '4'
  | 5 => '5' | 6 => '6' | 7 => '7' | 8 => '8' | 9 => '9'
  | _ => '*'

/-- Numeric value of a digit character (code point minus 48). -/
def digVal (c : Char) : Nat := c.toNat - 48

/-- Python `int(s)` on a (non-empty, all-digit) decimal string. -/
def strToNat (s : PyStr) : Nat := s.foldl (fun acc c => acc * 10 + digVal c) 0

/-- Python `str(n)` for a natural number: decimal, no leading zeros,
`str(0) = "0"`. -/
def natToStr (n : Nat) : PyStr :=
  if _h : n < 10 then [dChar n]
  else natToStr (n / 10) ++ [dChar (n % 10)]
termination_by n
decreasing_by exact Nat.div_lt_self (by omega) (by omega)

/-- Python `str(i)` for an integer (a `-` sign before the digits when
negative). -/
def intToStr (i : Int) : PyStr :=
  if i < 0 then '-' :: natToStr i.natAbs else natToStr i.toNat

/-- Python `int(s)` extended to an optional leading `-` sign (the inverse
reading of `intToStr`; the empty string is unreachable in the program). -/
def pyIntParse (s : PyStr) : Int :=
  match s with
  | [] => 0
  | c :: rest => if c = '-' then -(strToNat rest : Int) else (strToNat s : Int)

/-- Python string `<`: lexicographic by code point; a proper prefix is
smaller than any of its extensions. -/
def pyLt : PyStr → PyStr → Bool
  | [], [] => false
  | [], _ :: _ => true
  | _ :: _, [] => false
  | a :: xs, b :: ys => if a = b then pyLt xs ys else decide (a.toNat < b.toNat)

/-- Python string `<=`. -/
def pyLe (a b : PyStr) : Bool := pyLt a b || decide (a = b)

/-- A local wall-clock instant, as `datetime.datetime` carries it (the
program never uses sub-second precision or timezones). -/
structure DateTime where
  year : Nat
  month : Nat
  day : Nat
  hour : Nat
  minute : Nat
  second : Nat
deriving DecidableEq

/-- Gregorian leap-year rule (as `datetime` implements it). -/
def isLeap (y : Nat) : Bool := (y % 4 == 0 && y % 100 != 0) || y % 400 == 0

/-- Days in a month of the Gregorian calendar. -/
def daysInMonth (y m : Nat) : Nat :=
  if m = 2 then (if isLeap y then 29 else 28)
  else if m = 4 ∨ m = 6 ∨ m = 9 ∨ m = 11 then 30 else 31

/-- A well-formed `datetime` value (the ranges `datetime` itself enforces;
the year bound 9998 keeps `year + 1` printable with four digits). -/
def ValidDT (dt : DateTime) : Prop :=
  1 ≤ dt.year ∧ dt.year ≤ 9998 ∧ 1 ≤ dt.month ∧ dt.month ≤ 12 ∧
  1 ≤ dt.day ∧ dt.day ≤ daysInMonth dt.year dt.month ∧
  dt.hour < 24 ∧ dt.minute < 60 ∧ dt.second < 60

instance : DecidablePred ValidDT := fun dt => by unfold ValidDT; infer_instance

/-- `dt + datetime.timedelta(days=1)`: the date rolls forward one day, the
clock fields are unchanged. -/
def nextDay (dt : DateTime) : DateTime :=
  if dt.day < daysInMonth dt.year dt.month then { dt with day := dt.day + 1 }
  else if dt.month < 12 then { dt with month := dt.month + 1, day := 1 }
  else { dt with year := dt.year + 1, month := 1, day := 1 }

/-- Two-digit zero-padded decimal rendering (strftime `%H`, `%M`, `%S`,
`%m`, `%d`, and `str(n).zfill(2)` for `n < 100`). -/
def pad2 (n : Nat) : PyStr := [dChar (n / 10), dChar (n % 10)]

/-- Four-digit zero-padded decimal rendering (strftime `%Y` for four-digit
years). -/
def pad4 (n : Nat) : PyStr :=
  [dChar (n / 1000), dChar (n / 100 % 10), dChar (n / 10 % 10), dChar (n % 10)]

/-- `strftime('%H%M%S')`. -/
def fmtHMS (dt : DateTime) : PyStr := pad2 dt.hour ++ pad2 dt.minute ++ pad2 dt.second

/-- `strftime('%H%M')` (also `str(hour).zfill(2) + str(minute).zfill(2)`). -/
def fmtHM (dt : DateTime) : PyStr := pad2 dt.hour ++ pad2 dt.minute

/-- `strftime('%m%d')`. -/
def fmtMD (dt : DateTime) : PyStr := pad2 dt.month ++ pad2 dt.day

/-- `strftime('%Y')`. -/
def fmtY (dt : DateTime) : PyStr := pad4 dt.year

/-- `strftime('%Y%m%d')`. -/
def fmtYMD (dt : DateTime) : PyStr := pad4 dt.year ++ pad2 dt.month ++ pad2 dt.day

/-- `strftime('%Y-%m-%d %H:%M:%S')`, the ledger timestamp format. -/
def fmtLedger (dt : DateTime) : PyStr :=
  pad4 dt.year ++ ('-' :: pad2 dt.month) ++ ('-' :: pad2 dt.day) ++
  (' ' :: pad2 dt.hour) ++ (':' :: pad2 dt.minute) ++ (':' :: pad2 dt.second)

/-! ### Time/Date Parser & Validator (src/notifsystem.py lines 16-68) -/

/-- `valid_time` (src 16-35).  `None` is rejected up front (lines 18-19).
The two `datetime.datetime.strptime` probes are expanded to their semantics
on a fixed-length input: `strptime(s, '%H%M')` on a 4-character string
succeeds iff the string is all digits with `int(s[:2]) <= 23` and
`int(s[2:]) <= 59` (CPython's `_strptime` regex consumes `%H` and `%M`
greedily, two digits each; a one-digit fallback leaves unconverted trailing
data, which raises ValueError), and `strptime(s, '%H%M%S')` on a
6-character string additionally needs `int(s[4:]) <= 59` (`%S` values 60
and 61 pass the regex but are rejected by the `datetime` constructor). -/
def valid_time : Option PyStr → Bool
  | none => false
  | some s =>
    if s.length = 4 then
      s.all isDig && decide (strToNat (s.take 2) < 24) && decide (strToNat (s.drop 2) < 60)
    else if s.length = 6 then
      s.all isDig && decide (strToNat (s.take 2) < 24) &&
      decide (strToNat ((s.drop 2).take 2) < 60) && decide (strToNat (s.drop 4) < 60)
    else false

/-- `valid_date` (src 38-57).  `None` is rejected up front (lines 40-41).
`strptime(s, '%Y%m%d')` on an 8-character string succeeds iff the string is
all digits, the year is at least 1 (`datetime.MINYEAR`), the month is 01-12
and the day fits the month of that year; `strptime(s, '%m%d')` on a
4-character string uses `strptime`'s default year 1900 (not a leap year, so
"0229" is invalid). -/
def valid_date : Option PyStr → Bool
  | none => false
  | some s =>
    if s.length = 8 then
      s.all isDig && decide (1 ≤ strToNat (s.take 4)) &&
      decide (1 ≤ strToNat ((s.drop 4).take 2)) && decide (strToNat ((s.drop 4).take 2) ≤ 12) &&
      decide (1 ≤ strToNat (s.drop 6)) &&
      decide (strToNat (s.drop 6) ≤ daysInMonth (strToNat (s.take 4)) (strToNat ((s.drop 4).take 2)))
    else if s.length = 4 then
      s.all isDig && decide (1 ≤ strToNat (s.take 2)) && decide (strToNat (s.take 2) ≤ 12) &&
      decide (1 ≤ strToNat (s.drop 2)) &&
      decide (strToNat (s.drop 2) ≤ daysInMonth 1900 (strToNat (s.take 2)))
    else false

/-- `past_date` (src 60-68), with `datetime.datetime.today().strftime('%Y%m%d')`
passed in as `today`.  A 4-character date returns `False` immediately; an
8-character date returns `True` when `date_string <= current_date`
(Python string comparison) and otherwise falls off the end, returning
`None` — which every caller uses in boolean context, so it is modeled as
`false`. -/
def past_date (today s : PyStr) : Bool :=
  if s.length = 4 then false
  else pyLe s today

/-! ### Schedule Calculator (src/notifsystem.py lines 154-202, 233-250, 271-290) -/

/-- `parse_time_to_seconds` (src 154-163): `HHMM` is padded with `"00"`,
then `H*3600 + M*60 + S`. -/
def parse_time_to_seconds (ts : PyStr) : Nat :=
  let ts := if ts.length = 4 then ts ++ ("00".data) else ts
  strToNat (ts.take 2) * 3600 + strToNat ((ts.drop 2).take 2) * 60 + strToNat (ts.drop 4)

/-- `change_if_targeting_current_minute` (src 166-176), with the current
instant passed in as `now`.  `seconds_offset` arrives here as a string
(the `HHMMSS` tail sliced off by `at_time_and_seconds_offset`), so the
source's `str(seconds_offset)` is the identity.  The subtraction
`int(seconds_offset) - int(time_string_now[4:])` is Python integer
arithmetic, then `str(...)`. -/
def change_if_targeting_current_minute (now : DateTime) (at_time seconds_offset : PyStr) :
    PyStr × PyStr :=
  let time_string_now := fmtHMS now
  if pyLt time_string_now (at_time ++ seconds_offset) = true ∧ at_time = time_string_now.take 4
  then (("now".data),
        intToStr ((strToNat seconds_offset : Int) - (strToNat (time_string_now.drop 4) : Int)))
  else (at_time, seconds_offset)

/-- `prepend_year` (src 179-185), with the current instant passed in.
When `mmdd_now >= time_string[:4]` it returns next year's digits prepended;
otherwise the function falls off the end and returns `None` (there is no
branch producing the current year). -/
def prepend_year (now : DateTime) (time_string : PyStr) : Option PyStr :=
  let mmdd_now := fmtMD now
  let yyyy_next := natToStr (strToNat (fmtY now) + 1)
  if pyLe (time_string.take 4) mmdd_now then some (yyyy_next ++ time_string) else none

/-- `at_time_and_seconds_offset` (src 188-202).  NOTE: for an 8-character
input the source calls `prepend_year(time_string)` on line 191 but discards
the returned value (there is no assignment), so the string stays 8
characters long and falls through to the final `HHMMSS` branch; the pure
embedding therefore has no 8-character case. -/
def at_time_and_seconds_offset (now : DateTime) (time_string : PyStr) : PyStr × PyStr :=
  if time_string.length = 12 then ((" -t ".data) ++ time_string, ("00".data))
  else if time_string.length = 4 then (time_string, ("00".data))
  else change_if_targeting_current_minute now (time_string.take 4) (time_string.drop 4)

/-- The CPython `_strptime` parse of the 12-digit payload that follows
`" -t "` under the format `' -t %Y%m%d%H%M%S'` (src 239).  The format
expects 14 digits; on the 12-digit `YYYYMMDDHHMM` payload the regex
(`%Y` = `\d{4}`, `%m` = `1[0-2]|0[1-9]|[1-9]`, `%d` =
`3[01]|[12]\d|0[1-9]|[1-9]`, `%H` = `2[0-3]|[0-1]\d|\d`,
`%M` = `[0-5]\d|\d`, `%S` = `6[0-1]|[0-5]\d|\d`) consumes greedily
`4+2+2+2` digits for `%Y%m%d%H`, and the two remaining digits then force
the one-digit fallbacks of `%M` and `%S`: the 11th digit becomes the
minute and the 12th the second. -/
def parse_at_payload (p : PyStr) : DateTime :=
  ⟨strToNat (p.take 4), strToNat ((p.drop 4).take 2), strToNat ((p.drop 6).take 2),
   strToNat ((p.drop 8).take 2), strToNat ((p.drop 10).take 1), strToNat (p.drop 11)⟩

/-- `get_scheduled_time` (src 233-250), with the current instant passed in.
`HH_now`/`MM_now` are `str(...).zfill(2)` of the current hour and minute.
The `' -t '` branch is `strptime(time_string, ' -t %Y%m%d%H%M%S')` followed
by `strftime('%Y-%m-%d %H:%M:%S')`; see `parse_at_payload` for the parse.
Otherwise the date is today, bumped one day when
`time_string < HH_now + MM_now` (Python string comparison); for a
non-`"now"` target the hour and minute are replaced by `int(time_string[:2])`
and `int(time_string[2:4])`, and in all cases the second is replaced by
`int(seconds_offset)`. -/
def get_scheduled_time (now : DateTime) (time_string seconds_offset : PyStr) : PyStr :=
  let HH_now := pad2 now.hour
  let MM_now := pad2 now.minute
  if time_string.take 4 = (" -t ".data) then
    fmtLedger (parse_at_payload (time_string.drop 4))
  else
    let d1 := if pyLt time_string (HH_now ++ MM_now) then nextDay now else now
    let d2 := if time_string ≠ ("now".data) then
                { d1 with hour := strToNat (time_string.take 2),
                          minute := strToNat ((time_string.drop 2).take 2) }
              else d1
    let d3 := { d2 with second := strToNat seconds_offset }
    fmtLedger d3

/-- `time.strftime('%H%M%S', time.localtime e)`: the clock of day of the
instant `e` (seconds count aligned to local midnight, see the header). -/
def fmtClock (e : Nat) : PyStr := pad2 (e / 3600 % 24) ++ pad2 (e / 60 % 60) ++ pad2 (e % 60)

/-- `add_delta` (src 271-278): `int(time.time())` is `nowE`, the delay is
added, and the result is rendered back as a local `HHMMSS` clock time. -/
def add_delta (nowE : Nat) (ts : PyStr) : PyStr := fmtClock (nowE + parse_time_to_seconds ts)

/-! ### Job Ledger (src/notifsystem.py lines 216-230, 329-340) -/

/-- The fixed `" | "` field separator of the ledger file (as its character
list). -/
def sepStr : PyStr := [' ', '|', ' ']

/-- The row written by `write_job_to_file` (src 216-230); `seconds_offset`
arrives as a string, so `str(seconds_offset)` is the identity.  The
header-line handling of an absent file does not affect the row and is not
modeled. -/
def job_line (jobID scheduled_time seconds_offset : PyStr) (prioritize : Bool)
    (message : PyStr) : PyStr :=
  jobID ++ sepStr ++ scheduled_time ++ sepStr ++ seconds_offset ++ sepStr ++
  (if prioritize then ("Yes".data) else ("No".data)) ++ sepStr ++ message ++ ['\n']

/-- Does the string start with the 3-character separator `" | "`? -/
def startsWithSep : PyStr → Bool
  | c1 :: c2 :: rest => c1 == ' ' && c2 == '|' && (rest.headD 'A' == ' ')
  | _ => false

/-- Python `job.split(" | ")`: split on every non-overlapping occurrence of
the separator, scanning left to right.  When the separator matches at the
current position the scan continues after its three characters
(`rest.drop 2` together with the consumed head `c`). -/
def splitBar : PyStr → List PyStr
  | [] => [[]]
  | c :: rest =>
    if startsWithSep (c :: rest) then [] :: splitBar (rest.drop 2)
    else
      match splitBar rest with
      | f :: fs => (c :: f) :: fs
      | [] => [[c]]
termination_by s => s.length
decreasing_by
  · simp [List.length_drop]
    omega
  · simp

/-- Delete every non-overlapping occurrence of `" | "`, scanning left to
right (what `"".join(s.split(" | "))` computes); same scan as `splitBar`. -/
def removeBar : PyStr → PyStr
  | [] => []
  | c :: rest =>
    if startsWithSep (c :: rest) then removeBar (rest.drop 2)
    else c :: removeBar rest
termination_by s => s.length
decreasing_by
  · simp [List.length_drop]
    omega
  · simp

/-- Does the string contain an occurrence of `" | "`? -/
def containsBar : PyStr → Bool
  | [] => false
  | c :: rest => startsWithSep (c :: rest) || containsBar rest

/-- Python `"".join(fields)`. -/
def joinAll : List PyStr → PyStr
  | [] => []
  | f :: fs => f ++ joinAll fs

/-- Python whitespace characters stripped by `str.rstrip()` (the ASCII
ones; no other whitespace occurs in the program's data). -/
def isPySpace (c : Char) : Bool :=
  c == ' ' || c == '\t' || c == '\n' || c == '\x0b' || c == '\x0c' || c == '\r'

/-- Python `s.rstrip()`. -/
def rstrip (s : PyStr) : PyStr := (s.reverse.dropWhile isPySpace).reverse

/-- The field extraction of `job_line_into_output_fields` (src 329-340):
`fields = job.split(" | ")`, the first four fields taken positionally, and
`job_message = "".join(fields[4:]).rstrip()`.  (The function then re-parses
`fields[1]` as a timestamp and derives the time-left columns; those do not
touch the separator handling this models.) -/
def job_line_fields (job : PyStr) : PyStr × PyStr × PyStr × PyStr × PyStr :=
  let fields := splitBar job
  (fields.getD 0 [], fields.getD 1 [], fields.getD 2 [], fields.getD 3 [],
   rstrip (joinAll (fields.drop 4)))

/-! ### External Scheduler Adapter and the add pipeline (src 71-92, 253-300) -/

/-- Does the string start with `"job "` followed by a digit (the anchored
head of the regex `"job [0-9]+"`)? -/
def startsJobId : PyStr → Bool
  | c1 :: c2 :: c3 :: c4 :: rest =>
    c1 == 'j' && c2 == 'o' && c3 == 'b' && c4 == ' ' && isDig (rest.headD 'A')
  | _ => false

/-- `re.search("job [0-9]+", output)` followed by `.group()[4:]`: the
digit run after the leftmost `"job "` occurrence that is followed by at
least one digit, or `none` when the pattern does not occur. -/
def re_search_job : PyStr → Option PyStr
  | [] => none
  | c :: rest =>
    if startsJobId (c :: rest) then some (((c :: rest).drop 4).takeWhile isDig)
    else re_search_job rest

/-- Does the diagnostic output contain a `job <digits>` identifier
anywhere? -/
def containsJobId : PyStr → Bool
  | [] => false
  | c :: rest => startsJobId (c :: rest) || containsJobId rest

/-- `add_at` (src 253-268) restricted to its observable effect on the
ledger.  The external tool's diagnostic output is passed in as `output`,
the ledger file as the list of its rows.  When `re.search` finds no
`job <digits>` pattern it returns `None` and `None.group()` raises
`AttributeError`, aborting the program before `write_job_to_file` runs:
modeled as `(false, ledger)` (no write, ledger unchanged).  On success a
row is appended (`true`). -/
def add_at_run (now : DateTime) (time_arg output : PyStr) (ledger : List PyStr)
    (prioritize : Bool) (message : PyStr) : Bool × List PyStr :=
  let ats := at_time_and_seconds_offset now time_arg
  match re_search_job output with
  | none => (false, ledger)
  | some jobID =>
    (true, ledger ++ [job_line jobID (get_scheduled_time now ats.1 ats.2) ats.2
                        prioritize message])

/-- The three `-am` add modes. -/
inductive AddMode
  | atM
  | inM
  | onM
deriving DecidableEq

/-- The time argument each mode hands to `add_at` (src 281-290, 293-300):
`at` passes it through, `in` first converts the delay via `add_delta`,
`on` appends `"0000"` for midnight. -/
def mode_arg (nowE : Nat) : AddMode → PyStr → PyStr
  | .atM, t => t
  | .inM, t => add_delta nowE t
  | .onM, t => t ++ ("0000".data)

/-- The `(at_time, seconds_offset)` pair the given add mode computes. -/
def mode_schedule (now : DateTime) (nowE : Nat) (mode : AddMode) (t : PyStr) : PyStr × PyStr :=
  at_time_and_seconds_offset now (mode_arg nowE mode t)

/-- The validator `check_add` applies to the mode's argument (src 75-83). -/
def modeArgOK : AddMode → PyStr → Bool
  | .atM, t => valid_time (some t)
  | .inM, t => valid_time (some t)
  | .onM, t => valid_date (some t)

/-- `add_on`'s schedule computation (src 287-290): append `"0000"` and
delegate to `at_time_and_seconds_offset`. -/
def add_on_schedule (now : DateTime) (date_string : PyStr) : PyStr × PyStr :=
  at_time_and_seconds_offset now (date_string ++ ("0000".data))

/-- Outcome of `check_add` (src 71-92): each `sys.exit()` branch, or
acceptance. -/
inductive CheckResult
  | rejTime
  | rejDate
  | rejPast
  | rejMsg
  | ok
deriving DecidableEq

/-- `check_add` (src 71-92) as the outcome it selects; the current instant
is passed in for `past_date`.  `past_date` is only reached with a
validation-passed (hence present) date, so the `getD` default is
unreachable. -/
def check_add (now : DateTime) (mode : AddMode) (timeArg msgArg : Option PyStr) : CheckResult :=
  if (mode = .atM ∨ mode = .inM) ∧ valid_time timeArg = false then .rejTime
  else if mode = .onM ∧ valid_date timeArg = false then .rejDate
  else if mode = .onM ∧ past_date (fmtYMD now) (timeArg.getD []) = true then .rejPast
  else if msgArg = none then .rejMsg
  else .ok

/-- The add operation end to end: `check_arguments` then
`add_notification` (src 109-116, 293-300, 406-421), restricted to its
observable effect on the ledger.  A rejected argument set exits before any
external call: `(false, ledger)`. -/
def run_add (now : DateTime) (nowE : Nat) (mode : AddMode) (timeArg msgArg : Option PyStr)
    (output : PyStr) (ledger : List PyStr) (prio : Bool) : Bool × List PyStr :=
  if check_add now mode timeArg msgArg = CheckResult.ok then
    match timeArg, msgArg with
    | some t, some m => add_at_run now (mode_arg nowE mode t) output ledger prio m
    | _, _ => (false, ledger)
  else (false, ledger)

/-! ### Listing Formatter (src/notifsystem.py lines 364-379) -/

/-- One listing row, the 6-element list `job_line_into_output_fields`
returns: positions 0-5 are jobID, scheduled date & time, time left,
time left in seconds, prioritized, message.  Every field is a string; in
particular `timeLeftSeconds` is `str(delta.seconds)` and `prioritized` is
the literal `"Yes"` or `"No"` read from the ledger. -/
structure Row where
  jobID : PyStr
  timeWhen : PyStr
  timeLeft : PyStr
  timeLeftSeconds : PyStr
  prioritized : PyStr
  message : PyStr
deriving DecidableEq

/-- Stable insertion of `x` into `l`: `x` goes before the first element it
compares `le` to, so earlier elements with equal keys stay first. -/
def insBy (le : α → α → Bool) (x : α) : List α → List α
  | [] => [x]
  | y :: l => if le x y then x :: y :: l else y :: insBy le x l

/-- Stable insertion sort.  Python's `list.sort` is a stable sort, and a
stable sort's output is uniquely determined by the (total preorder)
comparison, so this models it exactly. -/
def isortBy (le : α → α → Bool) : List α → List α
  | [] => []
  | x :: l => insBy le x (isortBy le l)

/-- The sorting stage of `get_notification_entries` (src 364-379):
first `job_entries.sort(key=lambda job: job[5])` (alphabetical mode, key =
message) or `job_entries.sort(key=lambda job: job[3])` (default mode, key =
the STRING `timeLeftSeconds`), then
`job_entries.sort(key=lambda job: job[4], reverse=True)` — a stable
descending sort on the `"Yes"`/`"No"` string, modeled by the flipped
comparison.  (The trailing `for entry in job_entries: entry = ...` loop
only rebinds a local name and changes nothing.)  Python sorts strings with
lexicographic comparison, hence `pyLe` on the keys. -/
def get_notification_entries_sort (alphabetical : Bool) (rows : List Row) : List Row :=
  let r1 := if alphabetical then isortBy (fun a b => pyLe a.message b.message) rows
            else isortBy (fun a b => pyLe a.timeLeftSeconds b.timeLeftSeconds) rows
  isortBy (fun a b => pyLe b.prioritized a.prioritized) r1

/-- A live job nine seconds away, not prioritized (as the listing stage
sees it once the time-left columns are computed). -/
def row_nine : Row :=
  ⟨("101".data), ("2025-10-12 12:00:09".data), ("0:00:09".data), ("9".data),
   ("No".data), ("banana".data)⟩

/-- A live job ten seconds away, not prioritized. -/
def row_ten : Row :=
  ⟨("102".data), ("2025-10-12 12:00:10".data), ("0:00:10".data), ("10".data),
   ("No".data), ("apple".data)⟩

/-! ### Helper lemmas: digits, padding, lexicographic comparison -/

theorem dChar_toNat {k : Nat} (h : k < 10) : (dChar k).toNat = 48 + k := by
  interval_cases k <;> decide

theorem dChar_inj {a b : Nat} (ha : a < 10) (hb : b < 10) (h : dChar a = dChar b) : a = b := by
  have h2 := congrArg Char.toNat h
  rw [dChar_toNat ha, dChar_toNat hb] at h2
  omega

theorem digVal_dChar {k : Nat} (h : k < 10) : digVal (dChar k) = k := by
  unfold digVal; rw [dChar_toNat h]; omega

theorem isDig_dChar {k : Nat} (h : k < 10) : isDig (dChar k) = true := by
  interval_cases k <;> decide

theorem isDig_elim {c : Char} (h : isDig c = true) : ∃ k, k < 10 ∧ c = dChar k := by
  have hm : c ∈ digitChars := by
    simpa [isDig] using h
  simp [digitChars] at hm
  rcases hm with h | h | h | h | h | h | h | h | h | h <;> subst h
  · exact ⟨0, by omega, rfl⟩
  · exact ⟨1, by omega, rfl⟩
  · exact ⟨2, by omega, rfl⟩
  · exact ⟨3, by omega, rfl⟩
  · exact ⟨4, by omega, rfl⟩
  · exact ⟨5, by omega, rfl⟩
  · exact ⟨6, by omega, rfl⟩
  · exact ⟨7, by omega, rfl⟩
  · exact ⟨8, by omega, rfl⟩
  · exact ⟨9, by omega, rfl⟩

theorem strToNat_pair (a b : Char) : strToNat [a, b] = 10 * digVal a + digVal b := by
  simp [strToNat]; ring

theorem strToNat_single (a : Char) : strToNat [a] = digVal a := by
  simp [strToNat]

theorem strToNat_pad2 {n : Nat} (h : n < 100) : strToNat (pad2 n) = n := by
  show strToNat [dChar (n / 10), dChar (n % 10)] = n
  rw [strToNat_pair, digVal_dChar (by omega), digVal_dChar (by omega)]
  omega

theorem strToNat_append_single (s : PyStr) (c : Char) :
    strToNat (s ++ [c]) = strToNat s * 10 + digVal c := by
  simp [strToNat, List.foldl_append]

theorem strToNat_pad4 {n : Nat} (h : n < 10000) : strToNat (pad4 n) = n := by
  show strToNat ([dChar (n / 1000), dChar (n / 100 % 10), dChar (n / 10 % 10)] ++ [dChar (n % 10)]) = n
  rw [strToNat_append_single]
  show strToNat ([dChar (n / 1000), dChar (n / 100 % 10)] ++ [dChar (n / 10 % 10)]) * 10 + _ = n
  rw [strToNat_append_single, strToNat_pair]
  rw [digVal_dChar (by omega), digVal_dChar (by omega), digVal_dChar (by omega),
    digVal_dChar (by omega)]
  omega

theorem pad2_eq_iff {a b : Nat} (ha : a < 100) (hb : b < 100) : pad2 a = pad2 b ↔ a = b := by
  constructor
  · intro h
    simp only [pad2, List.cons.injEq, and_true] at h
    obtain ⟨h1, h2⟩ := h
    have e1 := dChar_inj (show a / 10 < 10 by omega) (show b / 10 < 10 by omega) h1
    have e2 := dChar_inj (show a % 10 < 10 by omega) (show b % 10 < 10 by omega) h2
    omega
  · intro h; rw [h]

theorem pyLt_append_same (x u v : PyStr) : pyLt (x ++ u) (x ++ v) = pyLt u v := by
  induction x with
  | nil => rfl
  | cons c x ih => simpa [pyLt] using ih

theorem pyLt_pad2 {a b : Nat} (ha : a < 100) (hb : b < 100) :
    pyLt (pad2 a) (pad2 b) = decide (a < b) := by
  show pyLt [dChar (a / 10), dChar (a % 10)] [dChar (b / 10), dChar (b % 10)] = decide (a < b)
  by_cases h1 : dChar (a / 10) = dChar (b / 10)
  · have e1 := dChar_inj (show a / 10 < 10 by omega) (show b / 10 < 10 by omega) h1
    by_cases h2 : dChar (a % 10) = dChar (b % 10)
    · have e2 := dChar_inj (show a % 10 < 10 by omega) (show b % 10 < 10 by omega) h2
      have hab : a = b := by omega
      simp [pyLt, h1, h2, hab]
    · simp only [pyLt, h1, if_pos, h2, if_neg, if_true, if_false]
      rw [dChar_toNat (show a % 10 < 10 by omega), dChar_toNat (show b % 10 < 10 by omega),
        decide_eq_decide]
      have : a % 10 ≠ b % 10 := fun e => h2 (by rw [e])
      omega
  · simp only [pyLt, h1, if_neg, if_false]
    rw [dChar_toNat (show a / 10 < 10 by omega), dChar_toNat (show b / 10 < 10 by omega),
      decide_eq_decide]
    have : a / 10 ≠ b / 10 := fun e => h1 (by rw [e])
    omega

theorem pyLt_pad2_append_ne {a c : Nat} (u v : PyStr) (ha : a < 100) (hc : c < 100)
    (h : a ≠ c) : pyLt (pad2 a ++ u) (pad2 c ++ v) = decide (a < c) := by
  show pyLt (dChar (a / 10) :: dChar (a % 10) :: u) (dChar (c / 10) :: dChar (c % 10) :: v)
      = decide (a < c)
  by_cases h1 : dChar (a / 10) = dChar (c / 10)
  · have e1 := dChar_inj (show a / 10 < 10 by omega) (show c / 10 < 10 by omega) h1
    by_cases h2 : dChar (a % 10) = dChar (c % 10)
    · have e2 := dChar_inj (show a % 10 < 10 by omega) (show c % 10 < 10 by omega) h2
      exact absurd (by omega) h
    · simp only [pyLt, h1, if_pos, h2, if_neg, if_true, if_false]
      rw [dChar_toNat (show a % 10 < 10 by omega), dChar_toNat (show c % 10 < 10 by omega),
        decide_eq_decide]
      have : a % 10 ≠ c % 10 := fun e => h2 (by rw [e])
      omega
  · simp only [pyLt, h1, if_neg, if_false]
    rw [dChar_toNat (show a / 10 < 10 by omega), dChar_toNat (show c / 10 < 10 by omega),
      decide_eq_decide]
    have : a / 10 ≠ c / 10 := fun e => h1 (by rw [e])
    omega

theorem pyLt_pad2_pair {a b c d : Nat} (ha : a < 100) (hb : b < 100) (hc : c < 100)
    (hd : d < 100) :
    pyLt (pad2 a ++ pad2 b) (pad2 c ++ pad2 d) = decide (a < c ∨ (a = c ∧ b < d)) := by
  by_cases h : a = c
  · subst h
    rw [pyLt_append_same, pyLt_pad2 hb hd, decide_eq_decide]
    omega
  · rw [pyLt_pad2_append_ne _ _ ha hc h, decide_eq_decide]
    omega

theorem pad2_pair_inj {a b c d : Nat} (ha : a < 100) (hb : b < 100) (hc : c < 100)
    (hd : d < 100) (h : pad2 a ++ pad2 b = pad2 c ++ pad2 d) : a = c ∧ b = d := by
  simp only [pad2, List.cons_append, List.nil_append, List.cons.injEq, and_true] at h
  obtain ⟨h1, h2, h3, h4⟩ := h
  have e1 := dChar_inj (by omega) (by omega) h1
  have e2 := dChar_inj (by omega) (by omega) h2
  have e3 := dChar_inj (by omega) (by omega) h3
  have e4 := dChar_inj (by omega) (by omega) h4
  omega

theorem natToStr_shape (n : Nat) : ∃ k r, k < 10 ∧ natToStr n = dChar k :: r := by
  induction n using Nat.strong_induction_on with
  | _ n ih =>
    by_cases h : n < 10
    · exact ⟨n, [], h, by rw [natToStr, dif_pos h]⟩
    · obtain ⟨k, r, hk, hr⟩ := ih (n / 10) (Nat.div_lt_self (by omega) (by omega))
      exact ⟨k, r ++ [dChar (n % 10)], hk, by rw [natToStr, dif_neg h, hr]; rfl⟩

theorem strToNat_natToStr (n : Nat) : strToNat (natToStr n) = n := by
  induction n using Nat.strong_induction_on with
  | _ n ih =>
    by_cases h : n < 10
    · rw [natToStr, dif_pos h, strToNat_single, digVal_dChar h]
    · rw [natToStr, dif_neg h, strToNat_append_single,
        ih (n / 10) (Nat.div_lt_self (by omega) (by omega)), digVal_dChar (by omega)]
      omega

theorem pyIntParse_natToStr (n : Nat) : pyIntParse (natToStr n) = (n : Int) := by
  obtain ⟨k, r, hk, hr⟩ := natToStr_shape n
  rw [hr, pyIntParse]
  have hne : dChar k ≠ '-' := by
    intro h
    have h2 := congrArg Char.toNat h
    rw [dChar_toNat hk] at h2
    have h3 : ('-').toNat = 45 := by decide
    rw [h3] at h2
    omega
  rw [if_neg hne, ← hr, strToNat_natToStr]

theorem intToStr_ofNat (n : Nat) : intToStr (n : Int) = natToStr n := by
  rw [intToStr, if_neg (by omega)]
  simp

theorem eq_pair_of_length_two {s : PyStr} (h : s.length = 2) : ∃ a b, s = [a, b] := by
  rcases s with _ | ⟨a, _ | ⟨b, _ | ⟨c, s⟩⟩⟩
  · simp at h
  · simp at h
  · exact ⟨a, b, rfl⟩
  · simp at h

theorem dChar_ne_dash {k : Nat} (h : k < 10) : dChar k ≠ '-' := by
  intro he
  have h2 := congrArg Char.toNat he
  rw [dChar_toNat h] at h2
  have h3 : ('-').toNat = 45 := by decide
  rw [h3] at h2
  omega

theorem pyIntParse_pad2 {n : Nat} (h : n < 100) : pyIntParse (pad2 n) = (n : Int) := by
  show pyIntParse (dChar (n / 10) :: [dChar (n % 10)]) = (n : Int)
  rw [pyIntParse, if_neg (dChar_ne_dash (by omega))]
  rw [show (dChar (n / 10) :: [dChar (n % 10)]) = pad2 n from rfl, strToNat_pad2 h]

theorem pyLt_pad2_into_zeros {n : Nat} (h : n < 100)
    (hlt : pyLt (pad2 n) ("0000".data) = true) : n = 0 := by
  by_contra hne
  have hz : ('0' : Char) = dChar 0 := rfl
  by_cases h1 : n / 10 = 0
  · have h2 : n % 10 ≠ 0 := by omega
    have hc1 : dChar (n / 10) = '0' := by rw [h1]; rfl
    have hc2 : dChar (n % 10) ≠ '0' := by
      rw [hz]
      intro he
      exact h2 (dChar_inj (by omega) (by omega) he)
    have : pyLt (pad2 n) ("0000".data) = false := by
      show pyLt (dChar (n / 10) :: dChar (n % 10) :: []) ('0' :: '0' :: '0' :: '0' :: []) = false
      rw [pyLt, if_pos hc1, pyLt, if_neg hc2, dChar_toNat (by omega)]
      have h48 : ('0').toNat = 48 := by decide
      rw [h48]
      simp
    rw [this] at hlt
    exact absurd hlt (by simp)
  · have hc1 : dChar (n / 10) ≠ '0' := by
      rw [hz]
      intro he
      exact h1 (dChar_inj (by omega) (by omega) he)
    have : pyLt (pad2 n) ("0000".data) = false := by
      show pyLt (dChar (n / 10) :: dChar (n % 10) :: []) ('0' :: '0' :: '0' :: '0' :: []) = false
      rw [pyLt, if_neg hc1, dChar_toNat (by omega)]
      have h48 : ('0').toNat = 48 := by decide
      rw [h48]
      simp
    rw [this] at hlt
    exact absurd hlt (by simp)

theorem eq_four_of_length {s : PyStr} (h : s.length = 4) :
    ∃ c1 c2 c3 c4, s = [c1, c2, c3, c4] := by
  rcases s with _ | ⟨a, s⟩; · simp at h
  rcases s with _ | ⟨b, s⟩; · simp at h
  rcases s with _ | ⟨c, s⟩; · simp at h
  rcases s with _ | ⟨d, s⟩; · simp at h
  rcases s with _ | ⟨e, s⟩
  · exact ⟨a, b, c, d, rfl⟩
  · simp at h

theorem eq_six_of_length {s : PyStr} (h : s.length = 6) :
    ∃ c1 c2 c3 c4 c5 c6, s = [c1, c2, c3, c4, c5, c6] := by
  rcases s with _ | ⟨a, s⟩; · simp at h
  rcases s with _ | ⟨b, s⟩; · simp at h
  rcases s with _ | ⟨c, s⟩; · simp at h
  rcases s with _ | ⟨d, s⟩; · simp at h
  rcases s with _ | ⟨e, s⟩; · simp at h
  rcases s with _ | ⟨f, s⟩; · simp at h
  rcases s with _ | ⟨g, s⟩
  · exact ⟨a, b, c, d, e, f, rfl⟩
  · simp at h

theorem digits_pair_pad2 {a b : Char} (ha : isDig a = true) (hb : isDig b = true) :
    [a, b] = pad2 (strToNat [a, b]) ∧ strToNat [a, b] < 100 := by
  obtain ⟨k, hk, rfl⟩ := isDig_elim ha
  obtain ⟨l, hl, rfl⟩ := isDig_elim hb
  rw [strToNat_pair, digVal_dChar hk, digVal_dChar hl]
  refine ⟨?_, by omega⟩
  show _ = [dChar ((10 * k + l) / 10), dChar ((10 * k + l) % 10)]
  have e1 : (10 * k + l) / 10 = k := by omega
  have e2 : (10 * k + l) % 10 = l := by omega
  rw [e1, e2]

/-- The sub-minute offset computed for any 6-digit `HHMMSS`-shaped input
with seconds below 60 lies in `[0, 59]`: the unchanged branch returns the
`SS` digits themselves, and the same-minute branch returns `SS` minus the
current second, which its guard makes positive. -/
theorem offset_ok_6 (now : DateTime) (hh : now.hour < 24) (hmi : now.minute < 60)
    (hsec : now.second < 60) (H M S : Nat) (hH : H < 100) (hM : M < 100) (hS : S < 60) :
    0 ≤ pyIntParse (at_time_and_seconds_offset now (pad2 H ++ pad2 M ++ pad2 S)).2 ∧
    pyIntParse (at_time_and_seconds_offset now (pad2 H ++ pad2 M ++ pad2 S)).2 ≤ 59 := by
  have htake : (pad2 H ++ pad2 M ++ pad2 S).take 4 = pad2 H ++ pad2 M := by simp [pad2]
  have hdrop : (pad2 H ++ pad2 M ++ pad2 S).drop 4 = pad2 S := by simp [pad2]
  have htakeN : (fmtHMS now).take 4 = pad2 now.hour ++ pad2 now.minute := by
    simp [fmtHMS, pad2]
  have hdropN : (fmtHMS now).drop 4 = pad2 now.second := by simp [fmtHMS, pad2]
  unfold at_time_and_seconds_offset
  rw [if_neg (by simp [pad2]), if_neg (by simp [pad2]), htake, hdrop]
  simp only [change_if_targeting_current_minute, htakeN, hdropN]
  by_cases hcond : pyLt (fmtHMS now) (pad2 H ++ pad2 M ++ pad2 S) = true ∧
      pad2 H ++ pad2 M = pad2 now.hour ++ pad2 now.minute
  · rw [if_pos hcond]
    obtain ⟨h1, h2⟩ := hcond
    have h1b : pyLt (pad2 now.hour ++ pad2 now.minute ++ pad2 now.second)
        (pad2 H ++ pad2 M ++ pad2 S) = true := h1
    rw [← h2, pyLt_append_same, pyLt_pad2 (by omega) (by omega)] at h1b
    have hlt : now.second < S := by simpa using h1b
    rw [strToNat_pad2 (by omega), strToNat_pad2 (by omega)]
    have hcast : (S : Int) - (now.second : Int) = ((S - now.second : Nat) : Int) := by omega
    rw [hcast, intToStr_ofNat, pyIntParse_natToStr]
    omega
  · rw [if_neg hcond]
    show 0 ≤ pyIntParse (pad2 S) ∧ pyIntParse (pad2 S) ≤ 59
    rw [pyIntParse_pad2 (by omega)]
    omega

/-! ### Claim theorems -/

/-- C1: the claim says `on` with a valid 4-digit `MMDD` date appends a year
(next year when the month/day already occurred, else the current year) and
delegates an absolute 12-digit form, yielding the schedule spec
`-t YYYYMMDDHHMM` with offset 0.  The code does not: on 2025-06-15 12:00:00
the date `1231` produces the at-spec `"1231"` (which `at` reads as the
clock time 12:31) with offset string `"0000"`, because line 191 discards
`prepend_year`'s return value and the 8-character `"12310000"` falls into
the `HHMMSS` branch; moreover `prepend_year` itself returns `None` here
(the date has not yet occurred and the function has no current-year
branch), contradicting the source's own comments on lines 189 and 193. -/
theorem C1_on_mode_drops_year :
    add_on_schedule ⟨2025, 6, 15, 12, 0, 0⟩ ("1231".data) = (("1231".data), ("0000".data)) ∧
    add_on_schedule ⟨2025, 6, 15, 12, 0, 0⟩ ("1231".data) ≠
      ((" -t 202512310000".data), ("00".data)) ∧
    prepend_year ⟨2025, 6, 15, 12, 0, 0⟩ ("12310000".data) = none := by
  refine ⟨by decide, by decide, by decide⟩

/-- C5: the claim (and the program's own `--alphabetical` help text,
"the default is soonest first") says the default listing order is ascending
by the integer value of `timeLeftSeconds`.  The code sorts on the field as
a decimal STRING (`job[3]` is `str(delta.seconds)`), which is lexicographic:
with two non-prioritized rows nine and ten seconds away, the code lists the
ten-second row first (`"10" < "9"`), while integer ascending order would
list the nine-second row first. -/
theorem C5_sorts_seconds_as_strings :
    get_notification_entries_sort false [row_nine, row_ten] = [row_ten, row_nine] ∧
    strToNat row_nine.timeLeftSeconds < strToNat row_ten.timeLeftSeconds ∧
    ([row_ten, row_nine] : List Row) ≠ [row_nine, row_ten] := by
  refine ⟨by decide, by decide, by decide⟩

/-- C7: when the external scheduler's diagnostic output contains no
`job <digits>` identifier, `re.search` returns `None`, `None.group()`
raises, and `add_at` aborts before `write_job_to_file` is reached: no row
is written and the ledger is exactly what it was. -/
theorem re_search_job_eq_none {s : PyStr} (h : containsJobId s = false) :
    re_search_job s = none := by
  induction s with
  | nil => rfl
  | cons c rest ih =>
    rw [containsJobId, Bool.or_eq_false_iff] at h
    rw [re_search_job, if_neg (by simp [h.1])]
    exact ih h.2

/-- C7: an `add` invocation whose scheduler output contains no
`job <digits>` identifier aborts without writing: the resulting ledger is
unchanged and no write happened. -/
theorem C7_failed_submit_leaves_ledger (now : DateTime) (time_arg output : PyStr)
    (ledger : List PyStr) (prio : Bool) (message : PyStr)
    (h : containsJobId output = false) :
    add_at_run now time_arg output ledger prio message = (false, ledger) := by
  unfold add_at_run
  rw [re_search_job_eq_none h]

/-- C7 witness: a concrete failing diagnostic (`at` binary missing) leaves
a concrete one-row ledger untouched. -/
theorem C7_failed_submit_leaves_ledger_witness :
    containsJobId ("sh: 1: at: not found".data) = false ∧
    add_at_run ⟨2025, 10, 12, 12, 0, 0⟩ ("1400".data) ("sh: 1: at: not found".data)
      [("old row".data)] false ("msg".data) = (false, [("old row".data)]) :=
  ⟨by decide, C7_failed_submit_leaves_ledger ⟨2025, 10, 12, 12, 0, 0⟩ ("1400".data)
    ("sh: 1: at: not found".data) [("old row".data)] false ("msg".data) (by decide)⟩

/-- C8: for an 8-character date string `past_date` returns true exactly
when the string is lexicographically at most today's `YYYYMMDD` (and false
otherwise — in Python the fall-through returns the falsy `None`); a
4-character date string is never past. -/
theorem C8_past_date_lex (now : DateTime) (s : PyStr) :
    (s.length = 8 → (past_date (fmtYMD now) s = true ↔ pyLe s (fmtYMD now) = true)) ∧
    (s.length = 4 → past_date (fmtYMD now) s = false) := by
  constructor
  · intro h8
    unfold past_date
    rw [if_neg (by omega)]
  · intro h4
    unfold past_date
    rw [if_pos h4]

/-- C8 witness: evaluated after 2020-01-01 the date `20200101` is past,
and `1231` never is. -/
theorem C8_past_date_lex_witness :
    past_date (fmtYMD ⟨2025, 10, 12, 0, 0, 0⟩) ("20200101".data) = true ∧
    past_date (fmtYMD ⟨2025, 10, 12, 0, 0, 0⟩) ("1231".data) = false :=
  ⟨((C8_past_date_lex ⟨2025, 10, 12, 0, 0, 0⟩ ("20200101".data)).1 (by decide)).mpr (by decide),
   (C8_past_date_lex ⟨2025, 10, 12, 0, 0, 0⟩ ("1231".data)).2 (by decide)⟩

/-- C10: an absent (`None`) time/date argument makes both validators
return false rather than raise (the explicit `None` guards on lines 18-19
and 40-41), so every `add` invocation without a time/date argument is
rejected by `check_add` (a usage-message exit) and the pipeline performs no
external call and no ledger write. -/
theorem C10_missing_time_rejected :
    valid_time none = false ∧ valid_date none = false ∧
    ∀ (now : DateTime) (nowE : Nat) (mode : AddMode) (msgArg : Option PyStr)
      (output : PyStr) (ledger : List PyStr) (prio : Bool),
      check_add now mode none msgArg ≠ CheckResult.ok ∧
      run_add now nowE mode none msgArg output ledger prio = (false, ledger) := by
  refine ⟨rfl, rfl, ?_⟩
  intro now nowE mode msgArg output ledger prio
  have hc : check_add now mode none msgArg ≠ CheckResult.ok := by
    cases mode <;> simp [check_add, valid_time, valid_date]
  refine ⟨hc, ?_⟩
  unfold run_add
  rw [if_neg hc]

/-- C2: for a valid 6-digit `HHMMSS` target, the at-mode schedule
computation returns `now` with offset `SS` minus the seconds already
elapsed exactly when the target `HHMM` is the current minute and the
target second has not yet elapsed (the target `HHMMSS` is strictly greater
than the current one); every other valid 6-digit input keeps its `HHMM`
prefix and offset `SS` unchanged. -/
theorem C2_same_minute_at (now : DateTime) (hdt : ValidDT now) (H M S : Nat)
    (hH : H < 24) (hM : M < 60) (hS : S < 60) :
    at_time_and_seconds_offset now (pad2 H ++ pad2 M ++ pad2 S) =
      if H = now.hour ∧ M = now.minute ∧ now.second < S
      then (("now".data), natToStr (S - now.second))
      else (pad2 H ++ pad2 M, pad2 S) := by
  obtain ⟨-, -, -, -, -, -, hh, hmi, hsec⟩ := hdt
  have h100H : H < 100 := by omega
  have h100M : M < 100 := by omega
  have h100S : S < 100 := by omega
  have htake : (pad2 H ++ pad2 M ++ pad2 S).take 4 = pad2 H ++ pad2 M := by simp [pad2]
  have hdrop : (pad2 H ++ pad2 M ++ pad2 S).drop 4 = pad2 S := by simp [pad2]
  have htakeN : (fmtHMS now).take 4 = pad2 now.hour ++ pad2 now.minute := by
    simp [fmtHMS, pad2]
  have hdropN : (fmtHMS now).drop 4 = pad2 now.second := by simp [fmtHMS, pad2]
  unfold at_time_and_seconds_offset
  rw [if_neg (by simp [pad2]), if_neg (by simp [pad2]), htake, hdrop]
  simp only [change_if_targeting_current_minute, htakeN, hdropN]
  by_cases hc : H = now.hour ∧ M = now.minute ∧ now.second < S
  · obtain ⟨e1, e2, e3⟩ := hc
    have hside : pyLt (fmtHMS now) (pad2 H ++ pad2 M ++ pad2 S) = true ∧
        pad2 H ++ pad2 M = pad2 now.hour ++ pad2 now.minute := by
      refine ⟨?_, by rw [e1, e2]⟩
      show pyLt (pad2 now.hour ++ pad2 now.minute ++ pad2 now.second) _ = true
      rw [← e1, ← e2, pyLt_append_same, pyLt_pad2 (by omega) h100S]
      simpa using e3
    rw [if_pos hside, if_pos ⟨e1, e2, e3⟩, strToNat_pad2 h100S, strToNat_pad2 (by omega)]
    have hcast : (S : Int) - (now.second : Int) = ((S - now.second : Nat) : Int) := by omega
    rw [hcast, intToStr_ofNat]
  · have hside : ¬(pyLt (fmtHMS now) (pad2 H ++ pad2 M ++ pad2 S) = true ∧
        pad2 H ++ pad2 M = pad2 now.hour ++ pad2 now.minute) := by
      rintro ⟨h1, h2⟩
      apply hc
      obtain ⟨eH, eM⟩ := pad2_pair_inj h100H h100M (by omega) (by omega) h2
      refine ⟨eH, eM, ?_⟩
      have h1b : pyLt (pad2 now.hour ++ pad2 now.minute ++ pad2 now.second)
          (pad2 H ++ pad2 M ++ pad2 S) = true := h1
      rw [← h2, pyLt_append_same, pyLt_pad2 (by omega) h100S] at h1b
      simpa using h1b
    rw [if_neg hside, if_neg hc]

/-- C2 witness: at current time 12:00:30 a request at `120050` resolves to
target `now` with offset 20. -/
theorem C2_same_minute_at_witness :
    at_time_and_seconds_offset ⟨2025, 10, 12, 12, 0, 30⟩ (pad2 12 ++ pad2 0 ++ pad2 50) =
      (("now".data), natToStr 20) := by
  have h := C2_same_minute_at ⟨2025, 10, 12, 12, 0, 30⟩ (by decide) 12 0 50
    (by decide) (by decide) (by decide)
  rw [h, if_pos (by exact ⟨rfl, rfl, by decide⟩)]
  rfl

/-- C4: mode `in` interprets a valid `HHMMSS` delay as
`H*3600 + M*60 + S` seconds, computes the clock time that lies that many
seconds after now, and delegates to the at-mode logic on that clock time —
so for a fixed current instant the schedule pair and the ledger
`scheduledAt` are identical (in particular within one second) to those of
mode `at` invoked with that clock time. -/
theorem C4_in_at_roundtrip (now : DateTime) (nowE : Nat) (H M S : Nat)
    (hH : H < 24) (hM : M < 60) (hS : S < 60) :
    parse_time_to_seconds (pad2 H ++ pad2 M ++ pad2 S) = H * 3600 + M * 60 + S ∧
    add_delta nowE (pad2 H ++ pad2 M ++ pad2 S) =
      fmtClock (nowE + (H * 3600 + M * 60 + S)) ∧
    mode_schedule now nowE AddMode.inM (pad2 H ++ pad2 M ++ pad2 S) =
      mode_schedule now nowE AddMode.atM (fmtClock (nowE + (H * 3600 + M * 60 + S))) ∧
    get_scheduled_time now
        (mode_schedule now nowE AddMode.inM (pad2 H ++ pad2 M ++ pad2 S)).1
        (mode_schedule now nowE AddMode.inM (pad2 H ++ pad2 M ++ pad2 S)).2 =
      get_scheduled_time now
        (mode_schedule now nowE AddMode.atM (fmtClock (nowE + (H * 3600 + M * 60 + S)))).1
        (mode_schedule now nowE AddMode.atM (fmtClock (nowE + (H * 3600 + M * 60 + S)))).2 := by
  have hp : parse_time_to_seconds (pad2 H ++ pad2 M ++ pad2 S) = H * 3600 + M * 60 + S := by
    simp only [parse_time_to_seconds]
    rw [if_neg (by simp [pad2])]
    have t1 : (pad2 H ++ pad2 M ++ pad2 S).take 2 = pad2 H := by simp [pad2]
    have t2 : ((pad2 H ++ pad2 M ++ pad2 S).drop 2).take 2 = pad2 M := by simp [pad2]
    have t3 : (pad2 H ++ pad2 M ++ pad2 S).drop 4 = pad2 S := by simp [pad2]
    rw [t1, t2, t3, strToNat_pad2 (by omega), strToNat_pad2 (by omega),
      strToNat_pad2 (by omega)]
  have hd : add_delta nowE (pad2 H ++ pad2 M ++ pad2 S) =
      fmtClock (nowE + (H * 3600 + M * 60 + S)) := by
    unfold add_delta
    rw [hp]
  have hm : mode_schedule now nowE AddMode.inM (pad2 H ++ pad2 M ++ pad2 S) =
      mode_schedule now nowE AddMode.atM (fmtClock (nowE + (H * 3600 + M * 60 + S))) := by
    simp only [mode_schedule, mode_arg]
    rw [hd]
  exact ⟨hp, hd, hm, by rw [hm]⟩

/-- C4 witness: a delay of `000005` (5 seconds) at the instant 43230
(12:00:30) yields exactly the schedule pair of mode `at` on the clock time
5 seconds from now. -/
theorem C4_in_at_roundtrip_witness :
    parse_time_to_seconds (pad2 0 ++ pad2 0 ++ pad2 5) = 0 * 3600 + 0 * 60 + 5 ∧
    mode_schedule ⟨2025, 10, 12, 12, 0, 30⟩ 43230 AddMode.inM (pad2 0 ++ pad2 0 ++ pad2 5) =
      mode_schedule ⟨2025, 10, 12, 12, 0, 30⟩ 43230 AddMode.atM
        (fmtClock (43230 + (0 * 3600 + 0 * 60 + 5))) := by
  have h := C4_in_at_roundtrip ⟨2025, 10, 12, 12, 0, 30⟩ 43230 0 0 5
    (by decide) (by decide) (by decide)
  exact ⟨h.1, h.2.2.1⟩

/-- C9: for every validation-passed input in every add mode, the seconds
offset of the computed schedule denotes an integer in `[0, 59]`; in the
same-minute `now` branch the recomputed offset is positive because the
branch fires only when the target second has not yet elapsed (for the `on`
mode's `MMDD0000` shape it fires only at second zero, giving offset 0). -/
theorem C9_offset_in_range (now : DateTime) (nowE : Nat) (mode : AddMode) (arg : PyStr)
    (hdt : ValidDT now) (hv : modeArgOK mode arg = true) :
    0 ≤ pyIntParse (mode_schedule now nowE mode arg).2 ∧
    pyIntParse (mode_schedule now nowE mode arg).2 ≤ 59 := by
  obtain ⟨-, -, -, -, -, -, hh, hmi, hsec⟩ := hdt
  cases mode with
  | atM =>
    simp only [modeArgOK] at hv
    simp only [mode_schedule, mode_arg]
    by_cases h4 : arg.length = 4
    · unfold at_time_and_seconds_offset
      rw [if_neg (by omega), if_pos h4]
      constructor
      · show 0 ≤ pyIntParse ("00".data)
        decide
      · show pyIntParse ("00".data) ≤ 59
        decide
    · by_cases h6 : arg.length = 6
      · obtain ⟨a, b, c, d, e, f, rfl⟩ := eq_six_of_length h6
        rw [valid_time, if_neg h4, if_pos h6] at hv
        simp only [Bool.and_eq_true, decide_eq_true_eq, List.all_eq_true] at hv
        obtain ⟨⟨⟨hdig, hHb⟩, hMb⟩, hSb⟩ := hv
        have hS60 : strToNat [e, f] < 60 := by
          have : (([a, b, c, d, e, f] : PyStr)).drop 4 = [e, f] := rfl
          rw [this] at hSb
          exact hSb
        obtain ⟨hpa, hla⟩ := digits_pair_pad2 (hdig a (by simp)) (hdig b (by simp))
        obtain ⟨hpc, hlc⟩ := digits_pair_pad2 (hdig c (by simp)) (hdig d (by simp))
        obtain ⟨hpe, hle⟩ := digits_pair_pad2 (hdig e (by simp)) (hdig f (by simp))
        have hsplit : ([a, b, c, d, e, f] : PyStr) = [a, b] ++ [c, d] ++ [e, f] := rfl
        rw [hsplit, hpa, hpc, hpe]
        exact offset_ok_6 now hh hmi hsec _ _ _ hla hlc hS60
      · rw [valid_time, if_neg h4, if_neg h6] at hv
        exact absurd hv (by simp)
  | inM =>
    simp only [mode_schedule, mode_arg, add_delta]
    exact offset_ok_6 now hh hmi hsec
      ((nowE + parse_time_to_seconds arg) / 3600 % 24)
      ((nowE + parse_time_to_seconds arg) / 60 % 60)
      ((nowE + parse_time_to_seconds arg) % 60)
      (by omega) (by omega) (by omega)
  | onM =>
    simp only [modeArgOK] at hv
    simp only [mode_schedule, mode_arg]
    by_cases h8 : arg.length = 8
    · unfold at_time_and_seconds_offset
      rw [if_pos (by simp [h8])]
      constructor
      · show 0 ≤ pyIntParse ("00".data)
        decide
      · show pyIntParse ("00".data) ≤ 59
        decide
    · have h4 : arg.length = 4 := by
        by_contra h4n
        rw [valid_date, if_neg h8, if_neg h4n] at hv
        exact absurd hv (by simp)
      obtain ⟨a, b, c, d, rfl⟩ := eq_four_of_length h4
      unfold at_time_and_seconds_offset
      rw [if_neg (by simp), if_neg (by simp)]
      have htk : (([a, b, c, d] : PyStr) ++ ("0000".data)).take 4 = [a, b, c, d] := rfl
      have hdp : (([a, b, c, d] : PyStr) ++ ("0000".data)).drop 4 = ("0000".data) := rfl
      rw [htk, hdp]
      simp only [change_if_targeting_current_minute]
      by_cases hcond : pyLt (fmtHMS now) (([a, b, c, d] : PyStr) ++ ("0000".data)) = true ∧
          ([a, b, c, d] : PyStr) = (fmtHMS now).take 4
      · rw [if_pos hcond]
        obtain ⟨h1, h2⟩ := hcond
        have htakeN : (fmtHMS now).take 4 = pad2 now.hour ++ pad2 now.minute := by
          simp [fmtHMS, pad2]
        rw [htakeN] at h2
        have h1b : pyLt (pad2 now.hour ++ pad2 now.minute ++ pad2 now.second)
            (([a, b, c, d] : PyStr) ++ ("0000".data)) = true := h1
        rw [h2, pyLt_append_same] at h1b
        have hz : now.second = 0 := pyLt_pad2_into_zeros (by omega) h1b
        have hdropN : (fmtHMS now).drop 4 = pad2 now.second := by simp [fmtHMS, pad2]
        rw [hdropN, hz]
        have e0 : (strToNat ("0000".data) : Int) - (strToNat (pad2 0) : Int) =
            ((0 : Nat) : Int) := by decide
        rw [e0, intToStr_ofNat]
        constructor
        · show 0 ≤ pyIntParse (natToStr 0)
          rw [pyIntParse_natToStr]
          omega
        · show pyIntParse (natToStr 0) ≤ 59
          rw [pyIntParse_natToStr]
          omega
      · rw [if_neg hcond]
        constructor
        · show 0 ≤ pyIntParse ("0000".data)
          decide
        · show pyIntParse ("0000".data) ≤ 59
          decide

/-- C9 witness: the same-minute request `120050` at 12:00:30 passes
validation and its recorded offset (20) lies in `[0, 59]`. -/
theorem C9_offset_in_range_witness :
    0 ≤ pyIntParse (mode_schedule ⟨2025, 10, 12, 12, 0, 30⟩ 43230 AddMode.atM
      ("120050".data)).2 ∧
    pyIntParse (mode_schedule ⟨2025, 10, 12, 12, 0, 30⟩ 43230 AddMode.atM
      ("120050".data)).2 ≤ 59 :=
  C9_offset_in_range ⟨2025, 10, 12, 12, 0, 30⟩ 43230 AddMode.atM ("120050".data)
    (by decide) (by decide)

/-- C3 counterexample: the claim says an explicit `' -t YYYYMMDDHHMM'`
input yields exactly that date and time.  The strptime format
`' -t %Y%m%d%H%M%S'` expects 14 digits; on the 12-digit payload the last
two digits are parsed as a one-digit minute and a one-digit second, so
`' -t 202512251430'` (14:30) is recorded as `2025-12-25 14:03:00`, not
`2025-12-25 14:30:00`. -/
theorem C3_counterexample :
    get_scheduled_time ⟨2025, 10, 12, 9, 0, 0⟩ (" -t 202512251430".data) ("00".data) =
      ("2025-12-25 14:03:00".data) ∧
    get_scheduled_time ⟨2025, 10, 12, 9, 0, 0⟩ (" -t 202512251430".data) ("00".data) ≠
      ("2025-12-25 14:30:00".data) := by
  refine ⟨by decide, by decide⟩

/-- C3 amended: `get_scheduled_time` satisfies: (a) for the explicit
`' -t '` form the 12-digit payload is parsed with the 11th digit as a
one-digit minute and the 12th as a one-digit second (so the rendering is
`YYYY-MM-DD HH:0M:0S`; exactly the stated instant for the midnight
payloads `YYYYMMDD0000` the program actually produces, where both are 0);
(b) for a 4-digit `HHMM` form it returns today's date with that clock time
and the given offset as the seconds, except tomorrow's date when the
target `HHMM` is strictly earlier than the current `HHMM`; (c) for the
`now` form it returns today's date at the current hour and minute with the
offset as the seconds field — the intended firing second minus the seconds
already elapsed, not the intended firing instant itself. -/
theorem C3_scheduled_time_amended (now : DateTime) (hdt : ValidDT now) :
    (∀ (y mo d h m1 s1 : Nat) (off : PyStr),
      1 ≤ y → y ≤ 9999 → 1 ≤ mo → mo ≤ 12 → 1 ≤ d → d ≤ 31 → h < 24 → m1 < 10 → s1 < 10 →
      get_scheduled_time now
          ((" -t ".data) ++ (pad4 y ++ pad2 mo ++ pad2 d ++ pad2 h ++ [dChar m1, dChar s1]))
          off
        = fmtLedger ⟨y, mo, d, h, m1, s1⟩) ∧
    (∀ (H M so : Nat), H < 24 → M < 60 → so < 60 →
      get_scheduled_time now (pad2 H ++ pad2 M) (pad2 so) =
        if H < now.hour ∨ (H = now.hour ∧ M < now.minute)
        then fmtLedger ⟨(nextDay now).year, (nextDay now).month, (nextDay now).day, H, M, so⟩
        else fmtLedger ⟨now.year, now.month, now.day, H, M, so⟩) ∧
    (∀ (so : Nat), so < 60 →
      get_scheduled_time now ("now".data) (pad2 so) =
        fmtLedger ⟨now.year, now.month, now.day, now.hour, now.minute, so⟩) := by
  obtain ⟨-, -, -, -, -, -, hh, hmi, hsec⟩ := hdt
  refine ⟨?_, ?_, ?_⟩
  · -- (a) the explicit ' -t ' form
    intro y mo d h m1 s1 off hy1 hy2 hmo1 hmo2 hd1 hd2 hhr hm1 hs1
    have ht : (((" -t ".data) ++
        (pad4 y ++ pad2 mo ++ pad2 d ++ pad2 h ++ [dChar m1, dChar s1])).take 4)
        = (" -t ".data) := rfl
    have hdr : (((" -t ".data) ++
        (pad4 y ++ pad2 mo ++ pad2 d ++ pad2 h ++ [dChar m1, dChar s1])).drop 4)
        = pad4 y ++ pad2 mo ++ pad2 d ++ pad2 h ++ [dChar m1, dChar s1] := rfl
    simp only [get_scheduled_time]
    rw [if_pos ht, hdr]
    have hp : (pad4 y ++ pad2 mo ++ pad2 d ++ pad2 h ++ [dChar m1, dChar s1] : PyStr) =
        [dChar (y / 1000), dChar (y / 100 % 10), dChar (y / 10 % 10), dChar (y % 10),
         dChar (mo / 10), dChar (mo % 10), dChar (d / 10), dChar (d % 10),
         dChar (h / 10), dChar (h % 10), dChar m1, dChar s1] := by
      simp [pad4, pad2]
    rw [hp]
    have hparse : parse_at_payload
        [dChar (y / 1000), dChar (y / 100 % 10), dChar (y / 10 % 10), dChar (y % 10),
         dChar (mo / 10), dChar (mo % 10), dChar (d / 10), dChar (d % 10),
         dChar (h / 10), dChar (h % 10), dChar m1, dChar s1] =
        (⟨y, mo, d, h, m1, s1⟩ : DateTime) := by
      unfold parse_at_payload
      simp only [DateTime.mk.injEq]
      refine ⟨?_, ?_, ?_, ?_, ?_, ?_⟩
      · show strToNat (pad4 y) = y
        exact strToNat_pad4 (by omega)
      · show strToNat (pad2 mo) = mo
        exact strToNat_pad2 (by omega)
      · show strToNat (pad2 d) = d
        exact strToNat_pad2 (by omega)
      · show strToNat (pad2 h) = h
        exact strToNat_pad2 (by omega)
      · show strToNat [dChar m1] = m1
        rw [strToNat_single, digVal_dChar hm1]
      · show strToNat [dChar s1] = s1
        rw [strToNat_single, digVal_dChar hs1]
    rw [hparse]
  · -- (b) the 4-digit HHMM form
    intro H M so hH hM hso
    have hts : (pad2 H ++ pad2 M).take 4 =
        [dChar (H / 10), dChar (H % 10), dChar (M / 10), dChar (M % 10)] := by
      simp [pad2]
    have hne : ¬((pad2 H ++ pad2 M).take 4 = (" -t ".data)) := by
      rw [hts]
      intro he
      simp only [List.cons.injEq, and_true] at he
      obtain ⟨he1, -⟩ := he
      have he2 := congrArg Char.toNat he1
      rw [dChar_toNat (by omega)] at he2
      have hsp : (' ').toNat = 32 := by decide
      rw [hsp] at he2
      omega
    have hnotnow : (pad2 H ++ pad2 M) ≠ ("now".data) := by
      intro he
      have hlen := congrArg List.length he
      simp [pad2] at hlen
    have hplt : pyLt (pad2 H ++ pad2 M) (pad2 now.hour ++ pad2 now.minute) =
        decide (H < now.hour ∨ (H = now.hour ∧ M < now.minute)) :=
      pyLt_pad2_pair (by omega) (by omega) (by omega) (by omega)
    have htk2 : (pad2 H ++ pad2 M).take 2 = pad2 H := by simp [pad2]
    have hdk2 : ((pad2 H ++ pad2 M).drop 2).take 2 = pad2 M := by simp [pad2]
    simp only [get_scheduled_time]
    rw [if_neg hne, hplt, if_pos hnotnow, htk2, hdk2,
      strToNat_pad2 (show H < 100 by omega), strToNat_pad2 (show M < 100 by omega),
      strToNat_pad2 (show so < 100 by omega)]
    by_cases hcnd : H < now.hour ∨ (H = now.hour ∧ M < now.minute)
    · rw [if_pos (decide_eq_true hcnd), if_pos hcnd]
    · rw [if_neg (by simpa using hcnd), if_neg hcnd]
  · -- (c) the now form
    intro so hso
    have hlt : pyLt ("now".data) (pad2 now.hour ++ pad2 now.minute) = false := by
      show pyLt ('n' :: ['o', 'w'])
        (dChar (now.hour / 10) :: (dChar (now.hour % 10) :: pad2 now.minute)) = false
      have hne2 : ('n' : Char) ≠ dChar (now.hour / 10) := by
        intro he
        have he2 := congrArg Char.toNat he
        rw [dChar_toNat (by omega)] at he2
        have hn : ('n').toNat = 110 := by decide
        rw [hn] at he2
        omega
      rw [pyLt, if_neg hne2]
      have hn : ('n').toNat = 110 := by decide
      rw [hn, dChar_toNat (by omega)]
      exact decide_eq_false (by omega)
    simp only [get_scheduled_time]
    rw [if_neg (by decide), hlt]
    rw [if_neg (show ¬(false = true) by simp),
      if_neg (show ¬(("now".data : PyStr) ≠ ("now".data : PyStr)) from fun hc => hc rfl),
      strToNat_pad2 (show so < 100 by omega)]

/-- C3 witness: all three branches at the instant 2025-10-12 09:30:00 —
the midnight `' -t '` payload for 2025-12-25, the earlier clock time
`0800` (rolling to tomorrow), and the `now` form with offset 20. -/
theorem C3_scheduled_time_amended_witness :
    get_scheduled_time ⟨2025, 10, 12, 9, 30, 0⟩
        ((" -t ".data) ++ (pad4 2025 ++ pad2 12 ++ pad2 25 ++ pad2 0 ++ [dChar 0, dChar 0]))
        ("00".data) = fmtLedger ⟨2025, 12, 25, 0, 0, 0⟩ ∧
    get_scheduled_time ⟨2025, 10, 12, 9, 30, 0⟩ (pad2 8 ++ pad2 0) (pad2 7) =
      (if 8 < 9 ∨ ((8 : Nat) = 9 ∧ (0 : Nat) < 30)
       then fmtLedger ⟨(nextDay ⟨2025, 10, 12, 9, 30, 0⟩).year,
         (nextDay ⟨2025, 10, 12, 9, 30, 0⟩).month, (nextDay ⟨2025, 10, 12, 9, 30, 0⟩).day,
         8, 0, 7⟩
       else fmtLedger ⟨2025, 10, 12, 8, 0, 7⟩) ∧
    get_scheduled_time ⟨2025, 10, 12, 9, 30, 0⟩ ("now".data) (pad2 20) =
      fmtLedger ⟨2025, 10, 12, 9, 30, 20⟩ := by
  have h := C3_scheduled_time_amended ⟨2025, 10, 12, 9, 30, 0⟩ (by decide)
  exact ⟨h.1 2025 12 25 0 0 0 ("00".data) (by omega) (by omega) (by omega) (by omega)
      (by omega) (by omega) (by omega) (by omega) (by omega),
    h.2.1 8 0 7 (by omega) (by omega) (by omega),
    h.2.2 20 (by omega)⟩

theorem splitBar_ne_nil (s : PyStr) : splitBar s ≠ [] := by
  cases s with
  | nil => simp [splitBar]
  | cons c rest =>
    rw [splitBar]
    split_ifs with h
    · simp
    · cases hsb : splitBar rest with
      | nil => simp [hsb]
      | cons f fs => simp [hsb]

/-- `"".join(s.split(" | "))` deletes exactly the separator occurrences. -/
theorem join_splitBar (s : PyStr) : joinAll (splitBar s) = removeBar s := by
  generalize hn : s.length = n
  induction n using Nat.strong_induction_on generalizing s with
  | _ n ih =>
    cases s with
    | nil => simp [splitBar, removeBar, joinAll]
    | cons c rest =>
      rw [splitBar, removeBar]
      split_ifs with hsep
      · simp only [joinAll, List.nil_append]
        refine ih (rest.drop 2).length ?_ (rest.drop 2) rfl
        simp only [List.length_cons] at hn
        simp only [List.length_drop]
        omega
      · cases hsb : splitBar rest with
        | nil => exact absurd hsb (splitBar_ne_nil rest)
        | cons f fs =>
          simp only [hsb]
          have ihr := ih rest.length (by simp only [List.length_cons] at hn; omega) rest rfl
          rw [hsb] at ihr
          simp only [joinAll] at ihr ⊢
          rw [List.cons_append, ihr]

/-- Splitting a field that contains no `'|'` character followed by a
separator peels off exactly that field. -/
theorem splitBar_field (x y : PyStr) (hx : '|' ∉ x) :
    splitBar (x ++ sepStr ++ y) = x :: splitBar y := by
  induction x with
  | nil =>
    show splitBar (' ' :: '|' :: ' ' :: y) = [] :: splitBar y
    rw [splitBar,
      if_pos (show startsWithSep (' ' :: '|' :: ' ' :: y) = true from rfl)]
    rfl
  | cons a x ihx =>
    have hx' : '|' ∉ x := fun h => hx (List.mem_cons_of_mem a h)
    show splitBar (a :: (x ++ sepStr ++ y)) = (a :: x) :: splitBar y
    rw [splitBar]
    have hff : startsWithSep (a :: (x ++ sepStr ++ y)) = false := by
      cases x with
      | nil => simp [startsWithSep, sepStr]
      | cons b x' =>
        have hb : b ≠ '|' := fun h => hx (by simp [h])
        simp [startsWithSep, hb]
    rw [if_neg (by rw [hff]; simp), ihx hx']

/-- The trailing newline never completes a separator, so it passes through
the separator-deleting scan. -/
theorem removeBar_append_newline (s : PyStr) :
    removeBar (s ++ ['\n']) = removeBar s ++ ['\n'] := by
  generalize hn : s.length = n
  induction n using Nat.strong_induction_on generalizing s with
  | _ n ih =>
    cases s with
    | nil => simp [removeBar, startsWithSep]
    | cons c rest =>
      by_cases hsep : startsWithSep (c :: rest) = true
      · cases rest with
        | nil => simp [startsWithSep] at hsep
        | cons b rest' =>
          cases rest' with
          | nil => simp [startsWithSep] at hsep
          | cons b2 r =>
            have hsep2 : startsWithSep (c :: b :: b2 :: (r ++ ['\n'])) = true := by
              simpa [startsWithSep] using hsep
            show removeBar (c :: b :: b2 :: (r ++ ['\n'])) = removeBar (c :: b :: b2 :: r) ++ ['\n']
            rw [removeBar, if_pos hsep2, removeBar, if_pos hsep]
            show removeBar (r ++ ['\n']) = removeBar r ++ ['\n']
            refine ih r.length ?_ r rfl
            simp only [List.length_cons] at hn
            omega
      · have hf : startsWithSep (c :: rest) = false := by simpa using hsep
        have hsep2 : startsWithSep (c :: (rest ++ ['\n'])) = false := by
          cases rest with
          | nil => simp [startsWithSep]
          | cons b rest' =>
            cases rest' with
            | nil => simp [startsWithSep]
            | cons b2 r => simpa [startsWithSep] using hf
        show removeBar (c :: (rest ++ ['\n'])) = removeBar (c :: rest) ++ ['\n']
        rw [removeBar, if_neg (by rw [hsep2]; simp), removeBar, if_neg hsep,
          ih rest.length (by simp only [List.length_cons] at hn; omega) rest rfl]
        simp

/-- `rstrip` absorbs a trailing newline. -/
theorem rstrip_append_newline (s : PyStr) : rstrip (s ++ ['\n']) = rstrip s := by
  unfold rstrip
  rw [List.reverse_append]
  simp [List.dropWhile, isPySpace]

/-- A string without separator occurrences passes through the
separator-deleting scan unchanged. -/
theorem removeBar_eq_self {s : PyStr} (h : containsBar s = false) : removeBar s = s := by
  induction s with
  | nil => simp [removeBar]
  | cons c rest ih =>
    rw [containsBar, Bool.or_eq_false_iff] at h
    rw [removeBar, if_neg (by simp [h.1]), ih h.2]

/-- Splitting a written ledger row: the four leading fields (none of which
contains a `'|'`; the `Yes`/`No` field never does) are exactly the first
four split results, and what remains is the split of the message plus
newline. -/
theorem splitBar_job_line (jobID sched off : PyStr) (prio : Bool) (msg : PyStr)
    (h1 : '|' ∉ jobID) (h2 : '|' ∉ sched) (h3 : '|' ∉ off) :
    splitBar (job_line jobID sched off prio msg) =
      jobID :: sched :: off :: (if prio then ("Yes".data) else ("No".data)) ::
        splitBar (msg ++ ['\n']) := by
  have hP : '|' ∉ (if prio then ("Yes".data) else ("No".data)) := by
    cases prio <;> decide
  unfold job_line
  rw [show jobID ++ sepStr ++ sched ++ sepStr ++ off ++ sepStr ++
      (if prio then ("Yes".data) else ("No".data)) ++ sepStr ++ msg ++ ['\n'] =
      jobID ++ sepStr ++ (sched ++ sepStr ++ (off ++ sepStr ++
      ((if prio then ("Yes".data) else ("No".data)) ++ sepStr ++ (msg ++ ['\n'])))) from by
    simp [List.append_assoc]]
  rw [splitBar_field _ _ h1, splitBar_field _ _ h2, splitBar_field _ _ h3,
    splitBar_field _ _ hP]

/-- C6 amended: writing a row and re-parsing it treats the first four
separators as structural and returns the first four fields unchanged, but
the message comes back as `rstrip (removeBar message)`: every `" | "`
occurrence inside the message is deleted (Python joins `fields[4:]` with
the empty string, not the separator) and trailing whitespace is stripped.
The original message is recovered exactly iff it contains no `" | "` and
is `rstrip`-fixed. -/
theorem C6_roundtrip_amended (jobID sched off : PyStr) (prio : Bool) (msg : PyStr)
    (h1 : '|' ∉ jobID) (h2 : '|' ∉ sched) (h3 : '|' ∉ off) (h4 : '\n' ∉ msg) :
    job_line_fields (job_line jobID sched off prio msg) =
      (jobID, sched, off, (if prio then ("Yes".data) else ("No".data)),
       rstrip (removeBar msg)) ∧
    (containsBar msg = false → rstrip msg = msg →
      (job_line_fields (job_line jobID sched off prio msg)).2.2.2.2 = msg) := by
  have hsp := splitBar_job_line jobID sched off prio msg h1 h2 h3
  have hmain : job_line_fields (job_line jobID sched off prio msg) =
      (jobID, sched, off, (if prio then ("Yes".data) else ("No".data)),
       rstrip (removeBar msg)) := by
    simp only [job_line_fields]
    rw [hsp]
    simp only [List.getD_cons_zero, List.getD_cons_succ, List.drop_succ_cons,
      List.drop_zero]
    rw [join_splitBar, removeBar_append_newline, rstrip_append_newline]
  refine ⟨hmain, fun hc hr => ?_⟩
  rw [hmain]
  show rstrip (removeBar msg) = msg
  rw [removeBar_eq_self hc, hr]

/-- C6 counterexample: the message `a | b` (no newline) does not survive
the round-trip — the parser joins the remainder fields with the empty
string, so the message comes back as `ab`, not `a | b`. -/
theorem C6_counterexample :
    (job_line_fields (job_line ("12".data) ("2025-12-25 00:00:00".data) ("00".data) true
      ("a | b".data))).2.2.2.2 = ("ab".data) ∧
    ("ab".data : PyStr) ≠ ("a | b".data) := by
  constructor
  · have hsp := splitBar_job_line ("12".data) ("2025-12-25 00:00:00".data) ("00".data) true
      ("a | b".data) (by decide) (by decide) (by decide)
    simp only [job_line_fields]
    rw [hsp]
    simp only [List.getD_cons_zero, List.getD_cons_succ, List.drop_succ_cons,
      List.drop_zero]
    rw [join_splitBar, removeBar_append_newline, rstrip_append_newline]
    show rstrip (removeBar ("a | b".data)) = ("ab".data)
    have hrb : removeBar ("a | b".data) = ("ab".data) := by
      simp [removeBar, startsWithSep]
    rw [hrb]
    decide
  · decide

/-- C6 witness: a separator-free message with no trailing whitespace
round-trips unchanged together with its four leading fields. -/
theorem C6_roundtrip_amended_witness :
    job_line_fields (job_line ("17".data) ("2025-12-25 00:00:00".data) ("00".data) false
        ("water the plants".data)) =
      (("17".data), ("2025-12-25 00:00:00".data), ("00".data),
       (if false then ("Yes".data) else ("No".data)),
       rstrip (removeBar ("water the plants".data))) ∧
    (containsBar ("water the plants".data) = false →
      rstrip ("water the plants".data) = ("water the plants".data) →
      (job_line_fields (job_line ("17".data) ("2025-12-25 00:00:00".data) ("00".data) false
        ("water the plants".data))).2.2.2.2 = ("water the plants".data)) :=
  C6_roundtrip_amended ("17".data) ("2025-12-25 00:00:00".data) ("00".data) false
    ("water the plants".data) (by decide) (by decide) (by decide) (by decide)

end Notifsystem

